import Mathlib

/-!
Verification development for the htmlwidgets form library.

The Go sources are shallowly embedded: the reflective path resolver
`findNestedField` becomes a recursive function over an explicit value tree
`GoValue`, the widgets become structures with explicit state threading, and
Go panics are tracked by an explicit `panicked` outcome.  `url.Values` is an
association list from keys to lists of strings.
-/

set_option maxHeartbeats 1000000

namespace Htmlwidgets

/-- A Go value reachable from a form's data root, as traversed by
`Form.findNestedField` via reflection.  `record` models a struct (fixed,
named fields), `mapping` a `map[string]...` (string keys, insertable and
removable), `seq` a slice; `zeroElem` is the zero value of the slice's
element type (`reflect.New(value.Type().Elem()).Elem()` appends it on
growth).  Scalars cover the leaf kinds the widgets write.  Pointer and
interface indirections, which the Go loop unwraps transparently, are not
represented: the data root stands for the already-dereferenced struct. -/
inductive GoValue : Type where
  | str (s : String)
  | bool (b : Bool)
  | int (n : Int)
  | seq (zeroElem : GoValue) (elems : List GoValue)
  | record (fields : List (String × GoValue))
  | mapping (entries : List (String × GoValue))

/-- Field access on a struct / key access on a map (`FieldByName`,
`MapIndex`); `none` models the invalid `reflect.Value`. -/
def lookupField : List (String × GoValue) → String → Option GoValue
  | [], _ => none
  | (k, v) :: rest, name => if k == name then some v else lookupField rest name

/-- Replace the value stored under an existing field or key. -/
def updateField : List (String × GoValue) → String → GoValue → List (String × GoValue)
  | [], _, _ => []
  | (k, v) :: rest, name, nv =>
      if k == name then (k, nv) :: rest else (k, v) :: updateField rest name nv

/-- `SetMapIndex` with a non-zero value: replace the entry or insert it. -/
def setMapIndex (entries : List (String × GoValue)) (name : String) (nv : GoValue) :
    List (String × GoValue) :=
  if (lookupField entries name).isSome then updateField entries name nv
  else entries ++ [(name, nv)]

/-- `SetMapIndex` with the zero `reflect.Value`: delete the entry. -/
def removeMapIndex : List (String × GoValue) → String → List (String × GoValue)
  | [], _ => []
  | (k, v) :: rest, name => if k == name then rest else (k, v) :: removeMapIndex rest name

/-- Go `strconv.Atoi`: optional sign followed by at least one ASCII decimal
digit.  (Overflow of 64-bit `int` is not modelled; the library only feeds
small slice indices through it.) -/
def goAtoi (s : String) : Option Int :=
  let signed : List Char → Bool × List Char := fun cs =>
    match cs with
    | '-' :: t => (true, t)
    | '+' :: t => (false, t)
    | t => (false, t)
  let (neg, digits) := signed s.toList
  if digits.isEmpty then none
  else if digits.all Char.isDigit then
    let n : Nat := digits.foldl (fun a c => a * 10 + (c.toNat - 48)) 0
    some (if neg then -(n : Int) else (n : Int))
  else none

/-- Helper for `splitPath`: split a character list on `'.'`. -/
def splitDots : List Char → List (List Char)
  | [] => [[]]
  | c :: cs =>
    if c == '.' then [] :: splitDots cs
    else
      match splitDots cs with
      | [] => [[c]]
      | g :: gs => (c :: g) :: gs

/-- Go `strings.Split(field, ".")`: every dot separates, the empty string
splits to one empty segment. -/
def splitPath (s : String) : List String :=
  (splitDots s.toList).map (fun cs => String.mk cs)

/-- Outcome of `Form.findNestedField`.  `ok` carries the (possibly mutated)
data root and the returned `reflect.Value` (`none` models the zero
`reflect.Value{}` of the early set/remove returns); `err` carries the
mutated root as well, because Go mutates in place and callers that discard
the error keep every mutation made before the failure; `panicked` models a
Go runtime panic (out-of-range slice indexing). -/
inductive FindRes : Type where
  | ok (newRoot : GoValue) (res : Option GoValue)
  | err (newRoot : GoValue) (msg : String)
  | panicked (msg : String)

def FindRes.isErr : FindRes → Bool
  | .err _ _ => true
  | _ => false

def FindRes.isPanic : FindRes → Bool
  | .panicked _ => true
  | _ => false

/-- `Form.findNestedField`, the path resolver: walk the dotted path through
the data graph; a terminal segment with `setValue` writes, with `remove`
deletes.  Structs select fields by name (a missing field is the
`AddressError`), maps insert/delete/select keys, slices parse the segment
with `Atoi`, grow by exactly one when the index equals the length
(`reflect.Append` of the element type's zero value, also during pure reads),
and index out of range panics exactly where `reflect` panics
(`value.Slice` / `value.Index`).  Go's in-place mutation is rendered by
rebuilding the surrounding containers on the way out, which also covers the
`lastMapValue.SetMapIndex` write-back for slices held in maps; reflect's
addressability rules are not otherwise tracked. -/
def findNestedField (v : GoValue) (parts : List String) (setValue : Option GoValue)
    (remove : Bool) : FindRes :=
  match parts with
  | [] =>
    match setValue with
    | some sv => .ok sv (some sv)
    | none => .ok v (some v)
  | part :: rest =>
    match v with
    | .record fields =>
      match lookupField fields part with
      | none => .err v ("form: Invalid field " ++ part ++ " in data")
      | some fv =>
        match findNestedField fv rest setValue remove with
        | .ok sub res => .ok (.record (updateField fields part sub)) res
        | .err sub msg => .err (.record (updateField fields part sub)) msg
        | .panicked msg => .panicked msg
    | .mapping entries =>
      match rest, setValue with
      | [], some sv => .ok (.mapping (setMapIndex entries part sv)) none
      | _, _ =>
        if rest.isEmpty && remove then
          .ok (.mapping (removeMapIndex entries part)) none
        else
          match lookupField entries part with
          | none => .err v ("form: Invalid field " ++ part ++ " in data")
          | some mv =>
            match findNestedField mv rest setValue remove with
            | .ok sub res => .ok (.mapping (updateField entries part sub)) res
            | .err sub msg => .err (.mapping (updateField entries part sub)) msg
            | .panicked msg => .panicked msg
    | .seq zeroElem elems =>
      match goAtoi part with
      | none => .err v ("Form: Expected index, got " ++ part)
      | some idx =>
        if rest.isEmpty && remove then
          if 0 ≤ idx ∧ idx < (elems.length : Int) then
            .ok (.seq zeroElem (elems.take idx.toNat ++ elems.drop (idx.toNat + 1))) none
          else .panicked "reflect.Value.Slice: slice index out of bounds"
        else
          let elems' := if (elems.length : Int) = idx then elems ++ [zeroElem] else elems
          if h : 0 ≤ idx ∧ idx.toNat < elems'.length then
            match findNestedField (elems'.get ⟨idx.toNat, h.2⟩) rest setValue remove with
            | .ok sub res => .ok (.seq zeroElem (elems'.set idx.toNat sub)) res
            | .err sub msg => .err (.seq zeroElem (elems'.set idx.toNat sub)) msg
            | .panicked msg => .panicked msg
          else .panicked "reflect: slice index out of range"
    | .str _ => .err v "form: Cant find field in data, scalar kind"
    | .bool _ => .err v "form: Cant find field in data, scalar kind"
    | .int _ => .err v "form: Cant find field in data, scalar kind"

/-- `Form.getNestedField`: resolve a dotted field id without writing. -/
def getNestedField (root : GoValue) (field : String) : FindRes :=
  findNestedField root (splitPath field) none false

/-- Outcome of a render-data computation: the widget's `Data` payload, or a
panic. -/
inductive RenderOut : Type where
  | ok (data : GoValue)
  | panicked (msg : String)

def RenderOut.isPanic : RenderOut → Bool
  | .panicked _ => true
  | _ => false

/-- `WidgetBase.GetRenderData`: resolve the widget's id in the data root and
panic on any resolution error. -/
def widgetBaseGetRenderData (root : GoValue) (id : String) : RenderOut :=
  match getNestedField root id with
  | .err _ msg => .panicked ("form: Could not find field " ++ id ++ " in data: " ++ msg)
  | .panicked msg => .panicked msg
  | .ok _ (some v) => .ok v
  | .ok _ none => .panicked "reflect: Interface of invalid Value"

/-- Go `url.Values`: a multi-valued key to list-of-strings mapping, as an
association list (Go map keys are unique and unordered; nothing below
depends on order, and only the first binding of a key is consulted). -/
def Values : Type := List (String × List String)

/-- Go `values[key]`: the full value list, `nil` (empty) when absent. -/
def Values.getAll (vs : Values) (key : String) : List String :=
  match List.find? (fun kv => kv.1 == key) vs with
  | some kv => kv.2
  | none => []

/-- Go `values.Get(key)`: first value, or the empty string when the key is
absent or has no values. -/
def Values.get (vs : Values) (key : String) : String :=
  match Values.getAll vs key with
  | [] => ""
  | v :: _ => v

/-- Go `_, ok := values[key]`: key presence (a present key may still carry an
empty list). -/
def Values.hasKey (vs : Values) (key : String) : Bool :=
  (List.find? (fun kv => kv.1 == key) vs).isSome

/-- Go `strconv.ParseBool`: exactly the twelve accepted tokens. -/
def goParseBool (s : String) : Option Bool :=
  if s == "1" || s == "t" || s == "T" || s == "TRUE" || s == "true" || s == "True" then
    some true
  else if s == "0" || s == "f" || s == "F" || s == "FALSE" || s == "false" || s == "False" then
    some false
  else none

/-- Value of one digit character under the given base, if valid. -/
def digitInBase (base : Nat) (c : Char) : Option Nat :=
  let d :=
    if '0' ≤ c ∧ c ≤ '9' then some (c.toNat - 48)
    else if 'a' ≤ c ∧ c ≤ 'z' then some (c.toNat - 97 + 10)
    else if 'A' ≤ c ∧ c ≤ 'Z' then some (c.toNat - 65 + 10)
    else none
  match d with
  | some v => if v < base then some v else none
  | none => none

/-- Digits of a given base folded to a number; `none` on an empty digit run
or an invalid digit. -/
def parseDigits (base : Nat) : List Char → Option Nat
  | [] => none
  | cs => go cs 0
where
  go : List Char → Nat → Option Nat
    | [], acc => some acc
    | c :: rest, acc =>
      match digitInBase base c with
      | some d => go rest (acc * base + d)
      | none => none

/-- Go `strconv.ParseInt(s, 0, 0)`: optional sign, then a base prefix
(`0x`/`0X` hex, `0b`/`0B` binary, `0o`/`0O` octal, a bare leading zero
octal), else decimal.  Digit-separator underscores and 64-bit overflow are
not modelled; no claim depends on them. -/
def goParseInt (s : String) : Option Int :=
  let afterSign : List Char → Bool × List Char := fun cs =>
    match cs with
    | '-' :: t => (true, t)
    | '+' :: t => (false, t)
    | t => (false, t)
  let (neg, cs) := afterSign s.toList
  let (base, digits) :=
    match cs with
    | '0' :: 'x' :: t => (16, t)
    | '0' :: 'X' :: t => (16, t)
    | '0' :: 'b' :: t => (2, t)
    | '0' :: 'B' :: t => (2, t)
    | '0' :: 'o' :: t => (8, t)
    | '0' :: 'O' :: t => (8, t)
    | '0' :: c :: t => (8, c :: t)
    | t => (10, t)
  match parseDigits base digits with
  | some n => some (if neg then -(n : Int) else (n : Int))
  | none => none

/-- Regular expressions as compiled by Go `regexp`, restricted to the
fragment needed here: empty set, empty string, a literal character, the
any-character class, concatenation, alternation and Kleene star.  Anchors
are not modelled; `goMatchString` below supplies Go's unanchored search
semantics. -/
inductive Regex : Type where
  | emp
  | eps
  | chr (c : Char)
  | anyChar
  | cat (r1 r2 : Regex)
  | alt (r1 r2 : Regex)
  | star (r : Regex)

/-- Whether the regex accepts the empty string. -/
def Regex.nullable : Regex → Bool
  | .emp => false
  | .eps => true
  | .chr _ => false
  | .anyChar => false
  | .cat r1 r2 => r1.nullable && r2.nullable
  | .alt r1 r2 => r1.nullable || r2.nullable
  | .star _ => true

/-- Brzozowski derivative of the regex by one character. -/
def Regex.deriv : Regex → Char → Regex
  | .emp, _ => .emp
  | .eps, _ => .emp
  | .chr c, a => if a == c then .eps else .emp
  | .anyChar, _ => .eps
  | .cat r1 r2, a =>
    if r1.nullable then .alt (.cat (r1.deriv a) r2) (r2.deriv a)
    else .cat (r1.deriv a) r2
  | .alt r1 r2, a => .alt (r1.deriv a) (r2.deriv a)
  | .star r, a => .cat (r.deriv a) (.star r)

/-- Whole-word acceptance of a character list. -/
def Regex.matchList (r : Regex) : List Char → Bool
  | [] => r.nullable
  | c :: cs => (r.deriv c).matchList cs

/-- Go `regexp.MatchString(pat, s)`: true iff SOME contiguous substring of
`s` (possibly empty) is accepted by the pattern — an unanchored search, not
a whole-string match. -/
def goMatchString (r : Regex) (s : String) : Bool :=
  let cs := s.toList
  (List.range (cs.length + 1)).any (fun i =>
    (List.range (cs.length - i + 1)).any (fun k =>
      r.matchList ((cs.drop i).take k)))

/-- Whole-string acceptance, written after the specification words "the
whole value, not merely a substring"; compared against `goMatchString`,
which is what `TextWidget.Fill` actually uses. -/
def fullMatchString (r : Regex) (s : String) : Bool :=
  r.matchList s.toList

/-- `WidgetBase`: the common widget fields.  The `form` back-pointer is
rendered by passing the data root into every fill explicitly. -/
structure WidgetBase where
  Id : String := ""
  Label : String := ""
  Description : String := ""
  Errors : List String := []
  Classes : List String := []

/-- Outcome of a widget or form fill: an ordinary return, or a propagated Go
panic. -/
inductive FillOut (α : Type) : Type where
  | ok (a : α)
  | panicked (msg : String)

def FillOut.isPanic {α : Type} : FillOut α → Bool
  | .panicked _ => true
  | _ => false

/-- Whether a widget fill RETURNED `true`; a panic returns nothing and
counts as `false` here. -/
def fillReturnsTrue {α : Type} : FillOut (α × GoValue × Bool) → Bool
  | .ok (_, _, b) => b
  | .panicked _ => false

/-- `TextWidget`: minimum length, optional pattern, configured validation
message.  `Regexp` is the compiled pattern; `none` models the empty pattern
string (Go guards the check with `len(w.Regexp) > 0`). -/
structure TextWidget where
  base : WidgetBase
  MinLength : Int := 0
  Regexp : Option Regex := none
  ValidationError : String := ""

/-- The validation computed by `TextWidget.Fill`: start from `true`, fail if
the byte length is below `MinLength`, then, still valid and a pattern set,
fail unless `regexp.MatchString` finds a match (a compile error of the
pattern also yields `matched == false` in Go; invalid patterns are not
modelled). -/
def TextWidget.validated (w : TextWidget) (value : String) : Bool :=
  let v1 := !decide ((value.utf8ByteSize : Int) < w.MinLength)
  if v1 then
    match w.Regexp with
    | some re => goMatchString re value
    | none => true
  else false

/-- Tail of `TextWidget.Fill` after the (error-ignored) write: validate and
either return `true` or append the configured error and return `false`. -/
def TextWidget.finish (w : TextWidget) (root : GoValue) (value : String) :
    FillOut (TextWidget × GoValue × Bool) :=
  if w.validated value then .ok (w, root, true)
  else
    .ok ({ w with base := { w.base with Errors := w.base.Errors ++ [w.ValidationError] } },
      root, false)

/-- `TextWidget.Fill`: reset `Errors`, read the submitted value, write it
through `findNestedField` — DISCARDING any returned error — then validate.
Only a reflect panic propagates. -/
def TextWidget.Fill (w0 : TextWidget) (root : GoValue) (values : Values) :
    FillOut (TextWidget × GoValue × Bool) :=
  let w := { w0 with base := { w0.base with Errors := [] } }
  let value := Values.get values w.base.Id
  match findNestedField root (splitPath w.base.Id) (some (.str value)) false with
  | .panicked msg => .panicked msg
  | .ok r _ => TextWidget.finish w r value
  | .err r _ => TextWidget.finish w r value

/-- `TextAreaWidget`: like `TextWidget` without the pattern. -/
structure TextAreaWidget where
  base : WidgetBase
  MinLength : Int := 0
  ValidationError : String := ""

def TextAreaWidget.finish (w : TextAreaWidget) (root : GoValue) (value : String) :
    FillOut (TextAreaWidget × GoValue × Bool) :=
  if !decide ((value.utf8ByteSize : Int) < w.MinLength) then .ok (w, root, true)
  else
    .ok ({ w with base := { w.base with Errors := w.base.Errors ++ [w.ValidationError] } },
      root, false)

/-- `TextAreaWidget.Fill`: reset `Errors`, write the submitted value
(discarding any resolution error), validate the minimum length. -/
def TextAreaWidget.Fill (w0 : TextAreaWidget) (root : GoValue) (values : Values) :
    FillOut (TextAreaWidget × GoValue × Bool) :=
  let w := { w0 with base := { w0.base with Errors := [] } }
  let value := Values.get values w.base.Id
  match findNestedField root (splitPath w.base.Id) (some (.str value)) false with
  | .panicked msg => .panicked msg
  | .ok r _ => TextAreaWidget.finish w r value
  | .err r _ => TextAreaWidget.finish w r value

structure BoolWidget where
  base : WidgetBase

/-- `BoolWidget.Fill`: with at least one submitted value, parse it with
`strconv.ParseBool` and write the parsed value only on success (an
unparsable value writes NOTHING); with no values, write `false`.  Always
returns `true`.  Resolution errors of the write are discarded. -/
def BoolWidget.Fill (w : BoolWidget) (root : GoValue) (values : Values) :
    FillOut (BoolWidget × GoValue × Bool) :=
  match Values.getAll values w.base.Id with
  | v0 :: _ =>
    match goParseBool v0 with
    | some b =>
      match findNestedField root (splitPath w.base.Id) (some (.bool b)) false with
      | .panicked msg => .panicked msg
      | .ok r _ => .ok (w, r, true)
      | .err r _ => .ok (w, r, true)
    | none => .ok (w, root, true)
  | [] =>
    match findNestedField root (splitPath w.base.Id) (some (.bool false)) false with
    | .panicked msg => .panicked msg
    | .ok r _ => .ok (w, r, true)
    | .err r _ => .ok (w, r, true)

structure IntegerWidget where
  base : WidgetBase

/-- The panic message of indexing `values[w.Id][0]` on an absent key. -/
def emptyIndexPanicMsg : String := "runtime error: index out of range with length 0"

/-- `IntegerWidget.Fill`: indexes `values[w.Id][0]` UNCONDITIONALLY — an
absent key (nil value list) panics; an unparsable value returns `false`
without writing; otherwise the parsed integer is written (resolution errors
discarded) and the fill returns `true`. -/
def IntegerWidget.Fill (w : IntegerWidget) (root : GoValue) (values : Values) :
    FillOut (IntegerWidget × GoValue × Bool) :=
  match Values.getAll values w.base.Id with
  | [] => .panicked emptyIndexPanicMsg
  | v0 :: _ =>
    match goParseInt v0 with
    | none => .ok (w, root, false)
    | some n =>
      match findNestedField root (splitPath w.base.Id) (some (.int n)) false with
      | .panicked msg => .panicked msg
      | .ok r _ => .ok (w, r, true)
      | .err r _ => .ok (w, r, true)

/-- One option of a `SelectWidget`. -/
structure SelectOption where
  Value : String
  Description : String
  Selected : Bool

structure SelectWidget where
  base : WidgetBase
  Options : List SelectOption

/-- The option loop of `SelectWidget.Fill`: walk the options in order; a
match overwrites the running value with the option's value and sets its
`Selected` flag, every non-matching option's flag is cleared. -/
def selectLoop (g : String) : List SelectOption → String → List SelectOption × String
  | [], value => ([], value)
  | o :: os, value =>
    if o.Value == g then
      let (os', value') := selectLoop g os o.Value
      ({ o with Selected := true } :: os', value')
    else
      let (os', value') := selectLoop g os value
      ({ o with Selected := false } :: os', value')

/-- `SelectWidget.Fill`: start from the FIRST option's value (panicking on an
empty option set); only when the key carries at least one value run the
option loop (an absent key touches no `Selected` flag); write the resolved
value (resolution errors discarded); always `true`. -/
def SelectWidget.Fill (w : SelectWidget) (root : GoValue) (values : Values) :
    FillOut (SelectWidget × GoValue × Bool) :=
  match w.Options with
  | [] => .panicked emptyIndexPanicMsg
  | o0 :: _ =>
    let (opts, value) :=
      if (Values.getAll values w.base.Id).length ≥ 1 then
        selectLoop (Values.get values w.base.Id) w.Options o0.Value
      else (w.Options, o0.Value)
    match findNestedField root (splitPath w.base.Id) (some (.str value)) false with
    | .panicked msg => .panicked msg
    | .ok r _ => .ok ({ w with Options := opts }, r, true)
    | .err r _ => .ok ({ w with Options := opts }, r, true)

structure HiddenWidget where
  base : WidgetBase

/-- `HiddenWidget.Fill`: write the submitted string unconditionally
(resolution errors discarded); always `true`. -/
def HiddenWidget.Fill (w : HiddenWidget) (root : GoValue) (values : Values) :
    FillOut (HiddenWidget × GoValue × Bool) :=
  match findNestedField root (splitPath w.base.Id)
      (some (.str (Values.get values w.base.Id))) false with
  | .panicked msg => .panicked msg
  | .ok r _ => .ok (w, r, true)
  | .err r _ => .ok (w, r, true)

structure FileWidget where
  base : WidgetBase

/-- `FileWidget.Fill`: never writes, always `true`. -/
def FileWidget.Fill (w : FileWidget) (root : GoValue) (_values : Values) :
    FillOut (FileWidget × GoValue × Bool) :=
  .ok (w, root, true)

/-- The closed set of widget variants a `ListWidget`'s shared inner widget
ranges over (dispatch through the Go `Widget` interface).  `TimeWidget` and
`PasswordWidget` are outside every claim and not embedded; a `ListWidget`
nested inside a `ListWidget` is likewise not modelled (no test or claim
exercises one). -/
inductive InnerWidget : Type where
  | text (w : TextWidget)
  | textArea (w : TextAreaWidget)
  | boolW (w : BoolWidget)
  | integer (w : IntegerWidget)
  | select (w : SelectWidget)
  | hidden (w : HiddenWidget)
  | file (w : FileWidget)

/-- `*(w.InnerWidget.Base()) = b`: overwrite the embedded `WidgetBase` of the
shared inner widget, leaving its variant-specific fields alone. -/
def InnerWidget.setBase (w : InnerWidget) (b : WidgetBase) : InnerWidget :=
  match w with
  | .text tw => .text { tw with base := b }
  | .textArea tw => .textArea { tw with base := b }
  | .boolW tw => .boolW { tw with base := b }
  | .integer tw => .integer { tw with base := b }
  | .select tw => .select { tw with base := b }
  | .hidden tw => .hidden { tw with base := b }
  | .file tw => .file { tw with base := b }

/-- Re-wrap a variant fill result into the `InnerWidget` sum. -/
def FillOut.wrap {α : Type} (f : α → InnerWidget) :
    FillOut (α × GoValue × Bool) → FillOut (InnerWidget × GoValue × Bool)
  | .ok (w, r, b) => .ok (f w, r, b)
  | .panicked msg => .panicked msg

/-- Interface dispatch of `Widget.Fill` for the inner widget. -/
def InnerWidget.fill (w : InnerWidget) (root : GoValue) (values : Values) :
    FillOut (InnerWidget × GoValue × Bool) :=
  match w with
  | .text tw => (TextWidget.Fill tw root values).wrap .text
  | .textArea tw => (TextAreaWidget.Fill tw root values).wrap .textArea
  | .boolW tw => (BoolWidget.Fill tw root values).wrap .boolW
  | .integer tw => (IntegerWidget.Fill tw root values).wrap .integer
  | .select tw => (SelectWidget.Fill tw root values).wrap .select
  | .hidden tw => (HiddenWidget.Fill tw root values).wrap .hidden
  | .file tw => (FileWidget.Fill tw root values).wrap .file

/-- The reserved add-to-list control key. -/
def addActionKey : String := "htmlwidgets-action--add-to-list"

/-- The reserved remove-from-list control key. -/
def removeActionKey : String := "htmlwidgets-action--remove-from-list"

/-- The child id `fmt.Sprintf("%v.%d", wid, i)`. -/
def listChildId (wid : String) (i : Nat) : String :=
  wid ++ "." ++ Nat.repr i

/-- Match of one submitted key against `^<wid>\.(\d)$` — note the SINGLE
`\d`: only a one-digit index is recognized.  The id is spliced into the
pattern verbatim; ids containing regex metacharacters are not modelled. -/
def listKeyIndex (wid : String) (key : String) : Option Nat :=
  match stripLit (wid.toList ++ ['.']) key.toList with
  | some [c] => if c.isDigit then some (c.toNat - 48) else none
  | _ => none
where
  /-- Strip an exact literal character prefix. -/
  stripLit : List Char → List Char → Option (List Char)
    | [], ks => some ks
    | _ :: _, [] => none
    | p :: ps, k :: ks => if k == p then stripLit ps ks else none

/-- The highest-index scan of `ListWidget.Fill`: fold the submitted keys,
keeping the greatest recognized (single-digit) index; starts at 0. -/
def scanMaxIndex (wid : String) (values : Values) : Nat :=
  values.foldl
    (fun acc kv =>
      match listKeyIndex wid kv.1 with
      | some idx => if idx > acc then idx else acc
      | none => acc)
    0

structure ListWidget where
  base : WidgetBase
  InnerWidget : InnerWidget
  AddLabel : String := ""
  RemoveLabel : String := ""

/-- The `maxIndex` that `ListWidget.Fill` loops up to: the key scan result,
plus one when the add control targets this widget. -/
def ListWidget.effMaxIndex (w : ListWidget) (values : Values) : Nat :=
  if Values.get values addActionKey == w.base.Id then scanMaxIndex w.base.Id values + 1
  else scanMaxIndex w.base.Id values

/-- The mutable state threaded through the index loop of `ListWidget.Fill`. -/
structure ListLoopState where
  inner : InnerWidget
  root : GoValue
  valid : Bool
  addTo : Bool
  removeIds : List String

/-- The absent-key adjustment inside one iteration of the index loop of
`ListWidget.Fill`: a present key leaves the state alone; an absent key with
the add flag down marks the child id for removal; an absent key with the
add flag up consumes the flag and invalidates (the freshly added row). -/
def listFillAbsent (values : Values) (id : String) (st : ListLoopState) : ListLoopState :=
  if Values.hasKey values id then st
  else if !st.addTo then { st with removeIds := st.removeIds ++ [id] }
  else { st with addTo := false, valid := false }

/-- One iteration of the index loop of `ListWidget.Fill` at index `i`:
a remove-control hit marks the child id, invalidates and `continue`s;
otherwise the absent-key adjustment runs, the shared inner widget is rebound
to the child id and filled, and its validity is folded in. -/
def listFillStep (wid : String) (values : Values) (st : ListLoopState) (i : Nat) :
    FillOut ListLoopState :=
  if Values.get values removeActionKey == listChildId wid i then
    .ok { st with removeIds := st.removeIds ++ [listChildId wid i], valid := false }
  else
    match ((listFillAbsent values (listChildId wid i) st).inner.setBase
        { Id := listChildId wid i }).fill
        (listFillAbsent values (listChildId wid i) st).root values with
    | .panicked msg => .panicked msg
    | .ok (inner', root', ok1) =>
      .ok { listFillAbsent values (listChildId wid i) st with
            inner := inner', root := root',
            valid := (listFillAbsent values (listChildId wid i) st).valid && ok1 }

/-- The index loop of `ListWidget.Fill` over the listed indices. -/
def listFillLoop (wid : String) (values : Values) :
    List Nat → ListLoopState → FillOut ListLoopState
  | [], st => .ok st
  | i :: is, st =>
    match listFillStep wid values st i with
    | .panicked msg => .panicked msg
    | .ok st' => listFillLoop wid values is st'

/-- The removal loop of `ListWidget.Fill`: remove each marked id in order,
discarding returned errors (panics propagate). -/
def applyRemoves (root : GoValue) : List String → FillOut GoValue
  | [] => .ok root
  | id :: ids =>
    match findNestedField root (splitPath id) none true with
    | .panicked msg => .panicked msg
    | .ok r _ => applyRemoves r ids
    | .err r _ => applyRemoves r ids

/-- The crop loop of `ListWidget.Fill`: remove the child ids for each listed
index (the indices are fixed up front from the STALE length snapshot
`field.Len()`, while each removal shifts the live sequence), discarding
returned errors. -/
def cropLoop (wid : String) (root : GoValue) : List Nat → FillOut GoValue
  | [] => .ok root
  | i :: is =>
    match findNestedField root (splitPath (listChildId wid i)) none true with
    | .panicked msg => .panicked msg
    | .ok r _ => cropLoop wid r is
    | .err r _ => cropLoop wid r is

/-- `ListWidget.Fill`: compute the add flag and `maxIndex`, run the index
loop for `i ∈ [0, maxIndex]`, apply the marked removals, then re-resolve the
sequence (panicking on a resolution error, or when the resolved field is not
a sequence — `field.Len()`) and crop every index beyond `maxIndex` using the
stale length snapshot. -/
def ListWidget.Fill (w : ListWidget) (root : GoValue) (values : Values) :
    FillOut (ListWidget × GoValue × Bool) :=
  let addTo := Values.get values addActionKey == w.base.Id
  let maxIndex := w.effMaxIndex values
  match listFillLoop w.base.Id values (List.range (maxIndex + 1))
      ⟨w.InnerWidget, root, true, addTo, []⟩ with
  | .panicked msg => .panicked msg
  | .ok st =>
    match applyRemoves st.root st.removeIds with
    | .panicked msg => .panicked msg
    | .ok root2 =>
      match getNestedField root2 w.base.Id with
      | .panicked msg => .panicked msg
      | .err _ msg => .panicked msg
      | .ok _ res =>
        match res with
        | some (.seq _ elems) =>
          match cropLoop w.base.Id root2 (List.range' (maxIndex + 1) (elems.length - (maxIndex + 1))) with
          | .panicked msg => .panicked msg
          | .ok root3 => .ok ({ w with InnerWidget := st.inner }, root3, st.valid)
        | _ => .panicked "reflect: call of reflect.Value.Len on non-slice Value"

/-- A widget registered on a form: one of the leaf variants, or a list. -/
inductive FormWidget : Type where
  | leaf (w : InnerWidget)
  | list (w : ListWidget)

/-- Interface dispatch of `Widget.Fill` for a registered widget. -/
def FormWidget.fill (w : FormWidget) (root : GoValue) (values : Values) :
    FillOut (FormWidget × GoValue × Bool) :=
  match w with
  | .leaf iw =>
    match iw.fill root values with
    | .panicked msg => .panicked msg
    | .ok (iw', r, b) => .ok (.leaf iw', r, b)
  | .list lw =>
    match ListWidget.Fill lw root values with
    | .panicked msg => .panicked msg
    | .ok (lw', r, b) => .ok (.list lw', r, b)

/-- `Form`: the ordered widget list and the data root it fills into. -/
structure Form where
  Widgets : List FormWidget
  data : GoValue

/-- The widget loop of `Form.Fill`: fill each widget in registration order,
threading the data root; the overall result is `true` iff every widget's
fill returned `true` (a `false` does not stop the pass). -/
def fillWidgets (values : Values) :
    List FormWidget → GoValue → FillOut (List FormWidget × GoValue × Bool)
  | [], root => .ok ([], root, true)
  | w :: ws, root =>
    match w.fill root values with
    | .panicked msg => .panicked msg
    | .ok (w', root', ok1) =>
      match fillWidgets values ws root' with
      | .panicked msg => .panicked msg
      | .ok (ws', root'', okRest) => .ok (w' :: ws', root'', ok1 && okRest)

/-- `Form.Fill`: run the widget loop over the form's widgets and data. -/
def Form.Fill (f : Form) (values : Values) : FillOut (Form × Bool) :=
  match fillWidgets values f.Widgets f.data with
  | .panicked msg => .panicked msg
  | .ok (ws, root, b) => .ok ({ f with Widgets := ws, data := root }, b)

/-- Whether `Form.Fill` RETURNED `true`; a panic returns nothing and counts
as `false` here. -/
def formReturnsTrue : FillOut (Form × Bool) → Bool
  | .ok (_, b) => b
  | .panicked _ => false

/-! Concrete evaluations of the embedding (the add / remove scenarios of the
repeating group, and the single-digit index scan). -/

example :
    ListWidget.Fill
      { base := { Id := "L" }, InnerWidget := .text { base := {} } }
      (.record [("L", .seq (.str "") [])])
      [(addActionKey, ["L"]), ("L.0", ["x"])]
      = .ok ({ base := { Id := "L" },
               InnerWidget := .text { base := { Id := "L.1" } } },
             .record [("L", .seq (.str "") [.str "x", .str ""])], false) := rfl

example :
    ListWidget.Fill
      { base := { Id := "L" }, InnerWidget := .text { base := {} } }
      (.record [("L", .seq (.str "") [])])
      [(addActionKey, ["L"])]
      = .ok ({ base := { Id := "L" },
               InnerWidget := .text { base := { Id := "L.1" } } },
             .record [("L", .seq (.str "") [.str ""])], false) := rfl

example :
    ListWidget.Fill
      { base := { Id := "L" }, InnerWidget := .text { base := {} } }
      (.record [("L", .seq (.str "") [.str "x"])])
      [(removeActionKey, ["L.0"]), ("L.0", ["x"])]
      = .ok ({ base := { Id := "L" },
               InnerWidget := .text { base := {} } },
             .record [("L", .seq (.str "") [])], false) := rfl

example : scanMaxIndex "L" [("L.10", ["a"]), ("L.2", ["b"])] = 2 := rfl
example : listKeyIndex "L" "L.10" = none := rfl
example : listKeyIndex "L" "L.7" = some 7 := rfl

example : splitPath "a.b" = ["a", "b"] := rfl
example : splitPath "" = [""] := rfl
example : goAtoi "12" = some 12 := by decide
example : goAtoi "-3" = some (-3) := by decide
example : goAtoi "a1" = none := by decide
example :
    findNestedField (.record [("Name", .str "x")]) ["Name"] (some (.str "y")) false
      = .ok (.record [("Name", .str "y")]) (some (.str "y")) := rfl
example :
    (findNestedField (.record [("Name", .str "x")]) ["Nope"] (some (.str "y")) false).isErr
      = true := rfl
example :
    findNestedField (.seq (.str "") [.str "a"]) ["1"] (some (.str "b")) false
      = .ok (.seq (.str "") [.str "a", .str "b"]) (some (.str "b")) := rfl
example :
    (findNestedField (.seq (.str "") [.str "a"]) ["2"] (some (.str "b")) false).isPanic
      = true := rfl
example :
    findNestedField (.seq (.str "") [.str "a", .str "b", .str "c"]) ["1"] none true
      = .ok (.seq (.str "") [.str "a", .str "c"]) none := rfl

/-! ## Theorems for the claims -/

/-- C1: during a Fill pass the AddressError raised by resolving a registered
widget's id is NOT fatal: `TextWidget.Fill` discards the error of
`findNestedField` and returns normally (here even reporting `true`), while
the same unresolvable id makes the RenderData pass panic.  This contradicts
the claim (and `Form.Fill`'s own doc comment, which promises a panic when a
registered widget is missing from the data struct). -/
theorem addressError_swallowed_in_fill :
    (findNestedField (.record [("Name", .str "")]) (splitPath "Missing")
        (some (.str "x")) false).isErr = true
    ∧ TextWidget.Fill { base := { Id := "Missing" } } (.record [("Name", .str "")])
        [("Missing", ["x"])]
      = .ok ({ base := { Id := "Missing" } }, .record [("Name", .str "")], true)
    ∧ (widgetBaseGetRenderData (.record [("Name", .str "")]) "Missing").isPanic = true :=
  ⟨rfl, rfl, rfl⟩

/-- C3: the index scan of `ListWidget.Fill` recognizes only single-digit
indices: a submitted key `L.10` is ignored by the scan, so `maxIndex` comes
out as 2 instead of 10 on this submission. -/
theorem scan_ignores_multidigit_index :
    scanMaxIndex "L" [("L.10", ["a"]), ("L.2", ["b"])] = 2
    ∧ listKeyIndex "L" "L.10" = none
    ∧ listKeyIndex "L" "L.2" = some 2 :=
  ⟨rfl, rfl, rfl⟩

/-- C2 counterexample: writing two past the end of a length-1 sequence does
NOT yield an AddressError — it panics (reflect's out-of-range indexing). -/
theorem seq_index_gap_panics_not_error :
    (findNestedField (.record [("S", .seq (.str "") [.str "a"])]) (splitPath "S.2")
        (some (.str "x")) false).isPanic = true
    ∧ (findNestedField (.record [("S", .seq (.str "") [.str "a"])]) (splitPath "S.2")
        (some (.str "x")) false).isErr = false :=
  ⟨rfl, rfl⟩

/-- C4 counterexample: with the widget's key absent the fill binds the first
option's value but does NOT touch any `Selected` flag (first conjunct: the
options come back exactly as configured, first flag still `false`); with a
present but unmatched value it clears EVERY flag, including the first
option's previously-set one (second conjunct). -/
theorem select_fallback_not_marked :
    SelectWidget.Fill
      { base := { Id := "S" },
        Options := [⟨"a", "A", false⟩, ⟨"b", "B", false⟩] }
      (.record [("S", .str "")]) []
      = .ok ({ base := { Id := "S" },
               Options := [⟨"a", "A", false⟩, ⟨"b", "B", false⟩] },
             .record [("S", .str "a")], true)
    ∧ SelectWidget.Fill
      { base := { Id := "S" },
        Options := [⟨"a", "A", true⟩, ⟨"b", "B", false⟩] }
      (.record [("S", .str "")]) [("S", ["zzz"])]
      = .ok ({ base := { Id := "S" },
               Options := [⟨"a", "A", false⟩, ⟨"b", "B", false⟩] },
             .record [("S", .str "a")], true) :=
  ⟨rfl, rfl⟩

/-- C6 counterexample: with pattern `a` and submitted value `ba` the fill
returns `true` — `regexp.MatchString` found the pattern as a SUBSTRING —
although the whole value does not match the pattern. -/
theorem text_regexp_substring_not_full :
    TextWidget.Fill
      { base := { Id := "T" }, Regexp := some (.chr 'a'), ValidationError := "bad" }
      (.record [("T", .str "")]) [("T", ["ba"])]
      = .ok ({ base := { Id := "T" }, Regexp := some (.chr 'a'), ValidationError := "bad" },
             .record [("T", .str "ba")], true)
    ∧ fullMatchString (.chr 'a') "ba" = false :=
  ⟨rfl, rfl⟩

/-- C7 counterexample: a present but unparsable value (`"maybe"`) writes
NOTHING — the previously bound `true` survives — though the claim says
`false` is written; the fill still returns `true`. -/
theorem bool_unparsable_keeps_prior_value :
    BoolWidget.Fill { base := { Id := "B" } } (.record [("B", .bool true)])
      [("B", ["maybe"])]
      = .ok ({ base := { Id := "B" } }, .record [("B", .bool true)], true)
    ∧ goParseBool "maybe" = none :=
  ⟨rfl, rfl⟩

/-- C2 (amended): at a terminal sequence segment `s` denoting index `i`,
writing at `i < n` overwrites in place, writing at `i = n` appends exactly
one slot holding the written value, and `i > n` PANICS via reflect's
out-of-range indexing instead of yielding an AddressError; in no case does a
sparse fill occur. -/
theorem seq_terminal_write_cases (z sv : GoValue) (xs : List GoValue) (s : String) (i : Nat)
    (hs : goAtoi s = some (i : Int)) :
    (i < xs.length →
      findNestedField (.seq z xs) [s] (some sv) false = .ok (.seq z (xs.set i sv)) (some sv))
    ∧ (i = xs.length →
      findNestedField (.seq z xs) [s] (some sv) false = .ok (.seq z (xs ++ [sv])) (some sv))
    ∧ (xs.length < i →
      findNestedField (.seq z xs) [s] (some sv) false
        = .panicked "reflect: slice index out of range") := by
  refine ⟨?_, ?_, ?_⟩ <;> intro h
  · have hne : ((xs.length : Int)) ≠ ((i : Nat) : Int) := by omega
    have hin : (0 : Int) ≤ ((i : Nat) : Int) ∧ (((i : Nat) : Int)).toNat < xs.length := by
      constructor <;> omega
    simp only [findNestedField, hs, List.isEmpty_nil, Bool.and_false, Bool.false_eq_true,
      if_false, if_neg hne]
    rw [dif_pos hin]
    simp only [findNestedField, Int.toNat_natCast]
  · have heq : ((xs.length : Int)) = ((i : Nat) : Int) := by omega
    have hin : (0 : Int) ≤ ((i : Nat) : Int) ∧ (((i : Nat) : Int)).toNat < (xs ++ [z]).length := by
      refine ⟨by omega, ?_⟩
      simp only [List.length_append, List.length_singleton]
      omega
    simp only [findNestedField, hs, List.isEmpty_nil, Bool.and_false, Bool.false_eq_true,
      if_false, if_pos heq]
    rw [dif_pos hin]
    simp only [findNestedField, Int.toNat_natCast, h, List.set_append, lt_irrefl, if_false,
      Nat.sub_self, List.set]
  · have hne : ((xs.length : Int)) ≠ ((i : Nat) : Int) := by omega
    have hout : ¬((0 : Int) ≤ ((i : Nat) : Int) ∧ (((i : Nat) : Int)).toNat < xs.length) := by
      intro hc
      omega
    simp only [findNestedField, hs, List.isEmpty_nil, Bool.and_false, Bool.false_eq_true,
      if_false, if_neg hne]
    rw [dif_neg hout]

/-- C5: removing a valid index `i < n` at a terminal sequence segment yields
`take i ++ drop (i+1)`: length `n - 1`, earlier elements unchanged, every
later element shifted down by one — a contiguous sequence with no gaps. -/
theorem seq_remove_shifts (z : GoValue) (xs : List GoValue) (s : String) (i : Nat)
    (hs : goAtoi s = some (i : Int)) (hi : i < xs.length) :
    findNestedField (.seq z xs) [s] none true
      = .ok (.seq z (xs.take i ++ xs.drop (i + 1))) none
    ∧ (xs.take i ++ xs.drop (i + 1)).length = xs.length - 1
    ∧ (∀ j, j < i → (xs.take i ++ xs.drop (i + 1))[j]? = xs[j]?)
    ∧ (∀ j, i ≤ j → (xs.take i ++ xs.drop (i + 1))[j]? = xs[j + 1]?) := by
  refine ⟨?_, ?_, ?_, ?_⟩
  · have hin : (0 : Int) ≤ ((i : Nat) : Int) ∧ ((i : Nat) : Int) < (xs.length : Int) := by
      constructor <;> omega
    simp only [findNestedField, hs, List.isEmpty_nil, Bool.and_self, if_pos rfl,
      if_pos hin, Int.toNat_natCast]
    simp
  · simp only [List.length_append, List.length_take, List.length_drop]
    omega
  · intro j hj
    rw [List.getElem?_append, List.getElem?_take]
    simp only [List.length_take]
    rw [if_pos (by omega), if_pos hj]
  · intro j hij
    rw [List.getElem?_append]
    simp only [List.length_take]
    rw [if_neg (by omega), List.getElem?_drop]
    congr 1
    omega

/-- C6 (amended): when the write resolves, `TextWidget.Fill` returns `true`
iff the value's byte length reaches `MinLength` and, when a pattern is set,
the pattern matches SOMEWHERE WITHIN the value (Go's unanchored
`MatchString`), not necessarily the whole value; on failure the configured
error is recorded as the only error and the (invalid) value has still been
bound (the root component is the written `r` in both outcomes). -/
theorem text_fill_validation (w : TextWidget) (root r : GoValue) (values : Values)
    (res : Option GoValue)
    (hf : findNestedField root (splitPath w.base.Id)
        (some (.str (Values.get values w.base.Id))) false = .ok r res) :
    (TextWidget.Fill w root values
      = if w.validated (Values.get values w.base.Id) then
          .ok ({ w with base := { w.base with Errors := [] } }, r, true)
        else
          .ok ({ w with base := { w.base with Errors := [w.ValidationError] } }, r, false))
    ∧ (w.validated (Values.get values w.base.Id) = true ↔
        (((Values.get values w.base.Id).utf8ByteSize : Int) ≥ w.MinLength
          ∧ ∀ re, w.Regexp = some re →
              goMatchString re (Values.get values w.base.Id) = true)) := by
  constructor
  · have hvv : TextWidget.validated
        { w with base := { w.base with Errors := [] } } (Values.get values w.base.Id)
        = w.validated (Values.get values w.base.Id) := rfl
    simp only [TextWidget.Fill, hf, TextWidget.finish, hvv]
    by_cases h : w.validated (Values.get values w.base.Id) = true
    · simp [h]
    · simp [h]
  · simp only [TextWidget.validated]
    cases hre : w.Regexp with
    | none =>
      by_cases hlen : ((Values.get values w.base.Id).utf8ByteSize : Int) < w.MinLength
      · simp [hlen]
      · simp [hlen]
        omega
    | some re =>
      by_cases hlen : ((Values.get values w.base.Id).utf8ByteSize : Int) < w.MinLength
      · simp [hlen]
      · simp [hlen]
        intro _
        omega

/-- C7 (amended): `BoolWidget.Fill` always returns `true`; an absent key
writes `false`; a present parsable value writes the parsed boolean; a
present but UNPARSABLE value writes nothing at all, leaving the previously
bound value in place. -/
theorem bool_fill_cases (w : BoolWidget) (root : GoValue) (values : Values) :
    (∀ r res, Values.getAll values w.base.Id = [] →
      findNestedField root (splitPath w.base.Id) (some (.bool false)) false = .ok r res →
      BoolWidget.Fill w root values = .ok (w, r, true))
    ∧ (∀ v0 vs, Values.getAll values w.base.Id = v0 :: vs → goParseBool v0 = none →
      BoolWidget.Fill w root values = .ok (w, root, true))
    ∧ (∀ v0 vs b r res, Values.getAll values w.base.Id = v0 :: vs → goParseBool v0 = some b →
      findNestedField root (splitPath w.base.Id) (some (.bool b)) false = .ok r res →
      BoolWidget.Fill w root values = .ok (w, r, true)) := by
  refine ⟨?_, ?_, ?_⟩
  · intro r res hv hf
    simp only [BoolWidget.Fill, hv, hf]
  · intro v0 vs hv hp
    simp only [BoolWidget.Fill, hv, hp]
  · intro v0 vs b r res hv hp hf
    simp only [BoolWidget.Fill, hv, hp, hf]

/-- C9: with the widget's key absent (no value list), `IntegerWidget.Fill`
indexes the first element of the empty list and panics — it neither returns
`false` nor leaves the bound value alone and returns. -/
theorem integer_fill_absent_panics (w : IntegerWidget) (root : GoValue) (values : Values)
    (h : Values.getAll values w.base.Id = []) :
    IntegerWidget.Fill w root values = .panicked emptyIndexPanicMsg := by
  simp only [IntegerWidget.Fill, h]

/-- C9 witness. -/
theorem integer_fill_absent_panics_witness :
    Values.getAll [] { base := { Id := "Age" } : IntegerWidget }.base.Id = []
    ∧ IntegerWidget.Fill { base := { Id := "Age" } } (.record [("Age", .int 0)]) []
      = .panicked emptyIndexPanicMsg :=
  ⟨rfl, integer_fill_absent_panics { base := { Id := "Age" } }
    (.record [("Age", .int 0)]) [] rfl⟩

/-- C10: whatever `Errors` a Text or TextArea widget carried before, after a
returning fill the list holds exactly the configured validation message on
an invalid fill and nothing at all on a valid one — errors never accumulate
across fill passes. -/
theorem fill_resets_errors (w : TextWidget) (wa : TextAreaWidget) (root : GoValue)
    (values : Values) :
    (∀ w' r b, TextWidget.Fill w root values = .ok (w', r, b) →
      w'.base.Errors = if b then [] else [w.ValidationError])
    ∧ (∀ w' r b, TextAreaWidget.Fill wa root values = .ok (w', r, b) →
      w'.base.Errors = if b then [] else [wa.ValidationError]) := by
  constructor
  · intro w' r b
    simp only [TextWidget.Fill]
    cases hf : findNestedField root (splitPath w.base.Id)
        (some (.str (Values.get values w.base.Id))) false with
    | panicked msg => intro hc; cases hc
    | ok r2 res =>
      simp only [TextWidget.finish]
      split
      · intro hc; cases hc; rfl
      · intro hc; cases hc; rfl
    | err r2 msg =>
      simp only [TextWidget.finish]
      split
      · intro hc; cases hc; rfl
      · intro hc; cases hc; rfl
  · intro w' r b
    simp only [TextAreaWidget.Fill]
    cases hf : findNestedField root (splitPath wa.base.Id)
        (some (.str (Values.get values wa.base.Id))) false with
    | panicked msg => intro hc; cases hc
    | ok r2 res =>
      simp only [TextAreaWidget.finish]
      split
      · intro hc; cases hc; rfl
      · intro hc; cases hc; rfl
    | err r2 msg =>
      simp only [TextAreaWidget.finish]
      split
      · intro hc; cases hc; rfl
      · intro hc; cases hc; rfl

/-! ### Loop lemmas for `ListWidget.Fill` -/

/-- The absent-key adjustment never revives an invalid state. -/
theorem listFillAbsent_keeps_false (values : Values) (id : String) (st : ListLoopState)
    (hv : st.valid = false) : (listFillAbsent values id st).valid = false := by
  unfold listFillAbsent
  split
  · exact hv
  · split
    · exact hv
    · rfl

/-- The absent-key adjustment preserves "the add flag is still up or the
state is already invalid". -/
theorem listFillAbsent_keeps_J (values : Values) (id : String) (st : ListLoopState)
    (hJ : st.addTo = true ∨ st.valid = false) :
    (listFillAbsent values id st).addTo = true ∨ (listFillAbsent values id st).valid = false := by
  unfold listFillAbsent
  split
  · exact hJ
  · split
    · exact hJ
    · exact Or.inr rfl

/-- With the key actually absent, the adjustment of an invariant-satisfying
state always comes out invalid. -/
theorem listFillAbsent_absent_false (values : Values) (id : String) (st : ListLoopState)
    (habs : Values.hasKey values id = false)
    (hJ : st.addTo = true ∨ st.valid = false) :
    (listFillAbsent values id st).valid = false := by
  unfold listFillAbsent
  rw [habs]
  simp only [Bool.false_eq_true, if_false]
  rcases hJ with hJ | hJ
  · rw [hJ]
    simp
  · split
    · exact hJ
    · rfl

/-- Once the loop state is invalid, one more iteration keeps it invalid. -/
theorem listFillStep_keeps_false (wid : String) (values : Values) (st : ListLoopState)
    (i : Nat) (st' : ListLoopState) (h : listFillStep wid values st i = .ok st')
    (hv : st.valid = false) : st'.valid = false := by
  unfold listFillStep at h
  split at h
  · cases h
    rfl
  · cases hfill : ((listFillAbsent values (listChildId wid i) st).inner.setBase
        { Id := listChildId wid i }).fill
        (listFillAbsent values (listChildId wid i) st).root values with
    | panicked m =>
      rw [hfill] at h
      cases h
    | ok t =>
      obtain ⟨inner', root', ok1⟩ := t
      rw [hfill] at h
      cases h
      show ((listFillAbsent values (listChildId wid i) st).valid && ok1) = false
      rw [listFillAbsent_keeps_false values (listChildId wid i) st hv]
      rfl

/-- One iteration preserves the invariant "the add flag is still up, or the
state is already invalid" (the only place the flag is consumed also
invalidates). -/
theorem listFillStep_keeps_J (wid : String) (values : Values) (st : ListLoopState)
    (i : Nat) (st' : ListLoopState) (h : listFillStep wid values st i = .ok st')
    (hJ : st.addTo = true ∨ st.valid = false) :
    st'.addTo = true ∨ st'.valid = false := by
  unfold listFillStep at h
  split at h
  · cases h
    rcases hJ with hJ | hJ
    · exact Or.inl hJ
    · exact Or.inr rfl
  · cases hfill : ((listFillAbsent values (listChildId wid i) st).inner.setBase
        { Id := listChildId wid i }).fill
        (listFillAbsent values (listChildId wid i) st).root values with
    | panicked m =>
      rw [hfill] at h
      cases h
    | ok t =>
      obtain ⟨inner', root', ok1⟩ := t
      rw [hfill] at h
      cases h
      rcases listFillAbsent_keeps_J values (listChildId wid i) st hJ with hA | hA
      · exact Or.inl hA
      · right
        show ((listFillAbsent values (listChildId wid i) st).valid && ok1) = false
        rw [hA]
        rfl

/-- A remove-control hit at the processed index returns the marked,
invalidated state without filling the inner widget. -/
theorem listFillStep_remove_hit (wid : String) (values : Values) (st : ListLoopState)
    (i : Nat) (hrm : Values.get values removeActionKey = listChildId wid i) :
    listFillStep wid values st i
      = .ok { st with removeIds := st.removeIds ++ [listChildId wid i], valid := false } := by
  unfold listFillStep
  rw [if_pos (by rw [hrm]; exact beq_self_eq_true _)]

/-- On an iteration whose child key is absent from the submission, a state
satisfying the invariant comes out invalid. -/
theorem listFillStep_absent_false (wid : String) (values : Values) (st : ListLoopState)
    (i : Nat) (st' : ListLoopState)
    (habs : Values.hasKey values (listChildId wid i) = false)
    (hJ : st.addTo = true ∨ st.valid = false)
    (h : listFillStep wid values st i = .ok st') : st'.valid = false := by
  unfold listFillStep at h
  split at h
  · cases h
    rfl
  · cases hfill : ((listFillAbsent values (listChildId wid i) st).inner.setBase
        { Id := listChildId wid i }).fill
        (listFillAbsent values (listChildId wid i) st).root values with
    | panicked m =>
      rw [hfill] at h
      cases h
    | ok t =>
      obtain ⟨inner', root', ok1⟩ := t
      rw [hfill] at h
      cases h
      show ((listFillAbsent values (listChildId wid i) st).valid && ok1) = false
      rw [listFillAbsent_absent_false values (listChildId wid i) st habs hJ]
      rfl

/-- The loop never recovers from an invalid state. -/
theorem listFillLoop_keeps_false (wid : String) (values : Values) :
    ∀ (is : List Nat) (st st' : ListLoopState), st.valid = false →
      listFillLoop wid values is st = .ok st' → st'.valid = false := by
  intro is
  induction is with
  | nil =>
    intro st st' hv h
    unfold listFillLoop at h
    cases h
    exact hv
  | cons i it ih =>
    intro st st' hv h
    unfold listFillLoop at h
    cases hstep : listFillStep wid values st i with
    | panicked m =>
      rw [hstep] at h
      cases h
    | ok st1 =>
      rw [hstep] at h
      exact ih st1 st' (listFillStep_keeps_false wid values st i st1 hstep hv) h

/-- The loop preserves the invariant. -/
theorem listFillLoop_keeps_J (wid : String) (values : Values) :
    ∀ (is : List Nat) (st st' : ListLoopState),
      (st.addTo = true ∨ st.valid = false) →
      listFillLoop wid values is st = .ok st' →
      st'.addTo = true ∨ st'.valid = false := by
  intro is
  induction is with
  | nil =>
    intro st st' hJ h
    unfold listFillLoop at h
    cases h
    exact hJ
  | cons i it ih =>
    intro st st' hJ h
    unfold listFillLoop at h
    cases hstep : listFillStep wid values st i with
    | panicked m =>
      rw [hstep] at h
      cases h
    | ok st1 =>
      rw [hstep] at h
      exact ih st1 st' (listFillStep_keeps_J wid values st i st1 hstep hJ) h

/-- A loop whose index run contains a remove-control hit ends invalid. -/
theorem listFillLoop_remove_hit (wid : String) (values : Values) (hit : Nat)
    (hrm : Values.get values removeActionKey = listChildId wid hit) :
    ∀ (is : List Nat) (st st' : ListLoopState), hit ∈ is →
      listFillLoop wid values is st = .ok st' → st'.valid = false := by
  intro is
  induction is with
  | nil =>
    intro st st' hmem
    cases hmem
  | cons i it ih =>
    intro st st' hmem h
    unfold listFillLoop at h
    by_cases hi : i = hit
    · subst hi
      rw [listFillStep_remove_hit wid values st i hrm] at h
      exact listFillLoop_keeps_false wid values it _ st' rfl h
    · cases hstep : listFillStep wid values st i with
      | panicked m =>
        rw [hstep] at h
        cases h
      | ok st1 =>
        rw [hstep] at h
        have hmem' : hit ∈ it := by
          rcases List.mem_cons.mp hmem with he | he
          · exact absurd he.symm hi
          · exact he
        exact ih st1 st' hmem' h

/-- The loop splits over an appended index run. -/
theorem listFillLoop_append (wid : String) (values : Values) :
    ∀ (is1 is2 : List Nat) (st : ListLoopState),
      listFillLoop wid values (is1 ++ is2) st
        = match listFillLoop wid values is1 st with
          | .panicked msg => .panicked msg
          | .ok st1 => listFillLoop wid values is2 st1 := by
  intro is1
  induction is1 with
  | nil =>
    intro is2 st
    rfl
  | cons i it ih =>
    intro is2 st
    have lhs : listFillLoop wid values ((i :: it) ++ is2) st
        = match listFillStep wid values st i with
          | .panicked msg => .panicked msg
          | .ok st1 => listFillLoop wid values (it ++ is2) st1 := rfl
    have rhs : listFillLoop wid values (i :: it) st
        = match listFillStep wid values st i with
          | .panicked msg => .panicked msg
          | .ok st1 => listFillLoop wid values it st1 := rfl
    rw [lhs, rhs]
    cases listFillStep wid values st i with
    | panicked m => rfl
    | ok st1 => exact ih is2 st1

/-- A one-index loop is exactly one step. -/
theorem listFillLoop_single (wid : String) (values : Values) (i : Nat)
    (st st' : ListLoopState) (h : listFillLoop wid values [i] st = .ok st') :
    listFillStep wid values st i = .ok st' := by
  unfold listFillLoop at h
  cases hstep : listFillStep wid values st i with
  | panicked m =>
    rw [hstep] at h
    cases h
  | ok st2 =>
    rw [hstep] at h
    unfold listFillLoop at h
    cases h
    rfl

/-- Dissect a returning `ListWidget.Fill`: the returned validity bit is the
index loop's final `valid`. -/
theorem listWidget_fill_valid (w : ListWidget) (root : GoValue) (values : Values)
    (out : ListWidget × GoValue × Bool)
    (h : ListWidget.Fill w root values = .ok out) :
    ∃ st : ListLoopState,
      listFillLoop w.base.Id values (List.range (w.effMaxIndex values + 1))
        ⟨w.InnerWidget, root, true, Values.get values addActionKey == w.base.Id, []⟩ = .ok st
      ∧ out.2.2 = st.valid := by
  simp only [ListWidget.Fill] at h
  split at h
  · cases h
  · rename_i st hloop
    refine ⟨st, hloop, ?_⟩
    split at h
    · cases h
    · rename_i root2 hrem
      split at h
      · cases h
      · cases h
      · rename_i r res hget
        split at h
        · rename_i z elems heqres
          split at h
          · cases h
          · rename_i root3 hcrop
            cases h
            rfl
        · cases h

/-- The submission carries a list-action control aimed at `w`: either the
remove control names a child id inside the processed index range, or the add
control names `w` while the fresh slot's key is absent. -/
def ListActionHit (w : ListWidget) (values : Values) : Prop :=
  (∃ i, i ≤ w.effMaxIndex values
      ∧ Values.get values removeActionKey = listChildId w.base.Id i)
  ∨ (Values.get values addActionKey = w.base.Id
      ∧ Values.hasKey values (listChildId w.base.Id (w.effMaxIndex values)) = false)

/-- Under a list-action hit, a RETURNING `ListWidget.Fill` reports `false`. -/
theorem listWidget_fill_ok_false (w : ListWidget) (root : GoValue) (values : Values)
    (out : ListWidget × GoValue × Bool)
    (hit : ListActionHit w values)
    (h : ListWidget.Fill w root values = .ok out) : out.2.2 = false := by
  obtain ⟨st, hloop, hval⟩ := listWidget_fill_valid w root values out h
  rw [hval]
  rcases hit with ⟨i, hi, hrm⟩ | ⟨hadd, habs⟩
  · exact listFillLoop_remove_hit w.base.Id values i hrm _ _ st
      (List.mem_range.mpr (by omega)) hloop
  · rw [List.range_succ, listFillLoop_append] at hloop
    cases hpre : listFillLoop w.base.Id values (List.range (w.effMaxIndex values))
        ⟨w.InnerWidget, root, true, Values.get values addActionKey == w.base.Id, []⟩ with
    | panicked m =>
      rw [hpre] at hloop
      cases hloop
    | ok st1 =>
      rw [hpre] at hloop
      have hJ1 : st1.addTo = true ∨ st1.valid = false := by
        refine listFillLoop_keeps_J w.base.Id values _ _ _ ?_ hpre
        left
        show (Values.get values addActionKey == w.base.Id) = true
        rw [hadd]
        exact beq_self_eq_true _
      exact listFillStep_absent_false w.base.Id values st1 (w.effMaxIndex values) st habs hJ1
        (listFillLoop_single w.base.Id values (w.effMaxIndex values) st1 st hloop)

/-- Dissect one returning step of the widget loop. -/
theorem fillWidgets_cons_ok (values : Values) (w : FormWidget) (ws : List FormWidget)
    (root : GoValue) (t : List FormWidget × GoValue × Bool)
    (h : fillWidgets values (w :: ws) root = .ok t) :
    ∃ tw tr, w.fill root values = .ok tw
      ∧ fillWidgets values ws tw.2.1 = .ok tr
      ∧ t.2.2 = (tw.2.2 && tr.2.2) := by
  unfold fillWidgets at h
  split at h
  · cases h
  · rename_i w' root' b hw
    split at h
    · cases h
    · rename_i ws' root'' bs hr
      cases h
      exact ⟨(w', root', b), (ws', root'', bs), hw, hr, rfl⟩

/-- Dissect a returning widget loop over an appended widget run. -/
theorem fillWidgets_append_ok (values : Values) :
    ∀ (ws1 ws2 : List FormWidget) (root : GoValue) (t : List FormWidget × GoValue × Bool),
      fillWidgets values (ws1 ++ ws2) root = .ok t →
      ∃ t1 t2, fillWidgets values ws1 root = .ok t1
        ∧ fillWidgets values ws2 t1.2.1 = .ok t2
        ∧ t.2.2 = (t1.2.2 && t2.2.2) := by
  intro ws1
  induction ws1 with
  | nil =>
    intro ws2 root t h
    exact ⟨([], root, true), t, rfl, h, rfl⟩
  | cons w ws1 ih =>
    intro ws2 root t h
    obtain ⟨tw, tr, hw, hr, hb⟩ := fillWidgets_cons_ok values w (ws1 ++ ws2) root t h
    obtain ⟨w', wroot, wb⟩ := tw
    obtain ⟨t1, t2, h1, h2, hb2⟩ := ih ws2 wroot tr hr
    obtain ⟨ws1', r1, b1⟩ := t1
    refine ⟨(w' :: ws1', r1, wb && b1), t2, ?_, h2, ?_⟩
    · show fillWidgets values (w :: ws1) root = _
      unfold fillWidgets
      rw [hw]
      show (match fillWidgets values ws1 wroot with
        | .panicked msg => (.panicked msg : FillOut (List FormWidget × GoValue × Bool))
        | .ok (ws', root'', bs) => .ok (w' :: ws', root'', wb && bs)) = _
      rw [h1]
    · rw [hb, hb2]
      exact (Bool.and_assoc wb b1 t2.2.2).symm

/-- A returning fill of a registered list widget under a list-action hit
reports `false`. -/
theorem formWidget_list_fill_false (w : ListWidget) (root : GoValue) (values : Values)
    (hit : ListActionHit w values) (tw : FormWidget × GoValue × Bool)
    (h : (FormWidget.list w).fill root values = .ok tw) : tw.2.2 = false := by
  have hdef : (FormWidget.list w).fill root values
      = match ListWidget.Fill w root values with
        | .panicked msg => .panicked msg
        | .ok (lw', r, b) => .ok (.list lw', r, b) := rfl
  rw [hdef] at h
  split at h
  · cases h
  · rename_i lw' r b hLW
    cases h
    exact listWidget_fill_ok_false w root values (lw', r, b) hit hLW

/-- C8: when the submission carries a list-action control aimed at a
registered `ListWidget` — the remove control naming one of its child ids in
the processed range, or the add control naming it while the fresh slot's key
is absent — `ListWidget.Fill` never returns `true` (it returns `false`, or
panics through an inner fill and returns nothing), even when every inner
widget fill succeeded; consequently a `Form.Fill` over a widget list
containing that list widget never returns `true` on such a submission. -/
theorem list_action_controls_invalidate (w : ListWidget) (values : Values)
    (hit : ListActionHit w values) :
    (∀ root : GoValue, fillReturnsTrue (ListWidget.Fill w root values) = false)
    ∧ ∀ (f : Form) (ws1 ws2 : List FormWidget),
        f.Widgets = ws1 ++ FormWidget.list w :: ws2 →
        formReturnsTrue (f.Fill values) = false := by
  have hlist : ∀ root : GoValue, fillReturnsTrue (ListWidget.Fill w root values) = false := by
    intro root
    cases h : ListWidget.Fill w root values with
    | panicked m => rfl
    | ok out =>
      show out.2.2 = false
      exact listWidget_fill_ok_false w root values out hit h
  refine ⟨hlist, ?_⟩
  intro f ws1 ws2 hw
  cases hF : Form.Fill f values with
  | panicked m => rfl
  | ok t =>
    obtain ⟨f', b⟩ := t
    show b = false
    unfold Form.Fill at hF
    split at hF
    · cases hF
    · rename_i ws root2 b2 hfw
      cases hF
      rw [hw] at hfw
      obtain ⟨t1, tmid, h1, hmid, hb⟩ := fillWidgets_append_ok values ws1
        (FormWidget.list w :: ws2) f.data _ hfw
      obtain ⟨tw, tr, hwf, hrest, hbmid⟩ := fillWidgets_cons_ok values
        (FormWidget.list w) ws2 t1.2.1 tmid hmid
      have hb' : b = (t1.2.2 && tmid.2.2) := hb
      rw [hb', hbmid, formWidget_list_fill_false w t1.2.1 values hit tw hwf]
      rw [Bool.false_and, Bool.and_false]

/-- The option loop sets each `Selected` flag to whether that option's value
equals the submitted one, and resolves to the submitted value exactly when
some option matches (else keeps the running start value). -/
theorem selectLoop_eq (g : String) :
    ∀ (opts : List SelectOption) (v : String),
      selectLoop g opts v
        = (opts.map (fun o => { o with Selected := o.Value == g }),
           if opts.any (fun o => o.Value == g) then g else v) := by
  intro opts
  induction opts with
  | nil =>
    intro v
    rfl
  | cons o os ih =>
    intro v
    by_cases hm : (o.Value == g) = true
    · have hov : o.Value = g := by simpa using hm
      simp only [selectLoop, hm, if_true, ih, List.map_cons, List.any_cons, Bool.true_or, hov,
        beq_self_eq_true]
      split
      · rfl
      · rfl
    · have hm' : (o.Value == g) = false := by simpa using hm
      simp only [selectLoop, hm', Bool.false_eq_true, if_false, ih, List.map_cons,
        List.any_cons, Bool.false_or]

/-- C4 (amended): a submitted value present in the submission drives the
option loop — every option's `Selected` flag becomes "my value equals the
submitted one" (so a matching option is selected and the rest cleared, while
an unmatched value clears ALL flags, the first option's included) and the
bound value is the submitted one when some option matched, else the first
option's value; an ABSENT key skips the loop entirely: the first option's
value is bound but no `Selected` flag changes. -/
theorem select_fill_cases (w : SelectWidget) (root : GoValue) (values : Values)
    (o0 : SelectOption) (os : List SelectOption) (hopts : w.Options = o0 :: os) :
    (∀ r res, Values.getAll values w.base.Id = [] →
      findNestedField root (splitPath w.base.Id) (some (.str o0.Value)) false = .ok r res →
      SelectWidget.Fill w root values = .ok (w, r, true))
    ∧ (∀ r res, 1 ≤ (Values.getAll values w.base.Id).length →
      findNestedField root (splitPath w.base.Id)
          (some (.str (if (o0 :: os).any (fun o => o.Value == Values.get values w.base.Id)
            then Values.get values w.base.Id else o0.Value))) false = .ok r res →
      SelectWidget.Fill w root values
        = .ok ({ w with Options := (o0 :: os).map (fun o => { o with Selected := o.Value == Values.get values w.base.Id }) }, r, true)) := by
  constructor
  · intro r res hv hf
    simp only [SelectWidget.Fill, hopts]
    rw [hv]
    simp only [List.length_nil]
    rw [if_neg (by omega)]
    rw [hf, ← hopts]
  · intro r res hv hf
    simp only [SelectWidget.Fill, hopts]
    rw [if_pos hv, selectLoop_eq]
    rw [hf]

/-! ### Witnesses -/

/-- C2 witness: the overwrite case evaluated at index string "1" over a
two-element sequence. -/
theorem seq_terminal_write_cases_witness :
    goAtoi "1" = some ((1 : Nat) : Int)
    ∧ (1 : Nat) < [GoValue.str "a", GoValue.str "b"].length
    ∧ findNestedField (.seq (.str "") [.str "a", .str "b"]) ["1"] (some (.str "x")) false
        = .ok (.seq (.str "") [.str "a", .str "x"]) (some (.str "x")) :=
  ⟨by decide, by decide,
    (seq_terminal_write_cases (.str "") (.str "x") [.str "a", .str "b"] "1" 1
      (by decide)).1 (by decide)⟩

/-- C5 witness: removing index "1" of a three-element sequence. -/
theorem seq_remove_shifts_witness :
    goAtoi "1" = some ((1 : Nat) : Int)
    ∧ (1 : Nat) < [GoValue.str "a", GoValue.str "b", GoValue.str "c"].length
    ∧ findNestedField (.seq (.str "") [.str "a", .str "b", .str "c"]) ["1"] none true
        = .ok (.seq (.str "") [.str "a", .str "c"]) none :=
  ⟨by decide, by decide,
    (seq_remove_shifts (.str "") [.str "a", .str "b", .str "c"] "1" 1
      (by decide) (by decide)).1⟩

/-- C6 witness: a 3-byte value against MinLength 5 fails, records the
configured message and still binds the value. -/
theorem text_fill_validation_witness :
    findNestedField (.record [("T", .str "")]) (splitPath "T") (some (.str "abc")) false
      = .ok (.record [("T", .str "abc")]) (some (.str "abc"))
    ∧ TextWidget.Fill { base := { Id := "T" }, MinLength := 5, ValidationError := "short" }
        (.record [("T", .str "")]) [("T", ["abc"])]
      = .ok ({ base := { Id := "T", Errors := ["short"] }, MinLength := 5, ValidationError := "short" },
          .record [("T", .str "abc")], false) :=
  ⟨rfl,
    (text_fill_validation { base := { Id := "T" }, MinLength := 5, ValidationError := "short" }
      (.record [("T", .str "")]) (.record [("T", .str "abc")]) [("T", ["abc"])]
      (some (.str "abc")) rfl).1⟩

/-- C7 witness: the absent-key case writes `false` over a previously-true
binding and returns `true`. -/
theorem bool_fill_cases_witness :
    Values.getAll ([] : Values) "B" = []
    ∧ findNestedField (.record [("B", .bool true)]) (splitPath "B") (some (.bool false)) false
        = .ok (.record [("B", .bool false)]) (some (.bool false))
    ∧ BoolWidget.Fill { base := { Id := "B" } } (.record [("B", .bool true)]) []
        = .ok ({ base := { Id := "B" } }, .record [("B", .bool false)], true) :=
  ⟨rfl, rfl,
    (bool_fill_cases { base := { Id := "B" } } (.record [("B", .bool true)]) []).1
      (.record [("B", .bool false)]) (some (.bool false)) rfl rfl⟩

/-- C10 witness: a stale error list is replaced by exactly the one
configured message on an invalid fill. -/
theorem fill_resets_errors_witness :
    TextWidget.Fill
        { base := { Id := "T", Errors := ["stale"] }, MinLength := 5, ValidationError := "short" }
        (.record [("T", .str "")]) [("T", ["abc"])]
      = .ok ({ base := { Id := "T", Errors := ["short"] }, MinLength := 5, ValidationError := "short" },
          .record [("T", .str "abc")], false)
    ∧ ({ base := { Id := "T", Errors := ["short"] }, MinLength := 5, ValidationError := "short" } : TextWidget).base.Errors
        = if false then [] else ["short"] :=
  ⟨rfl,
    (fill_resets_errors
      { base := { Id := "T", Errors := ["stale"] }, MinLength := 5, ValidationError := "short" }
      { base := {} } (.record [("T", .str "")]) [("T", ["abc"])]).1
      { base := { Id := "T", Errors := ["short"] }, MinLength := 5, ValidationError := "short" }
      (.record [("T", .str "abc")]) false rfl⟩

/-- C4 witness: the present-key branch at a submission matching the second
option. -/
theorem select_fill_cases_witness :
    1 ≤ (Values.getAll [("S", ["b"])] "S").length
    ∧ findNestedField (.record [("S", .str "")]) (splitPath "S") (some (.str "b")) false
        = .ok (.record [("S", .str "b")]) (some (.str "b"))
    ∧ SelectWidget.Fill
          { base := { Id := "S" }, Options := [⟨"a", "A", true⟩, ⟨"b", "B", false⟩] }
          (.record [("S", .str "")]) [("S", ["b"])]
        = .ok ({ base := { Id := "S" }, Options := [⟨"a", "A", false⟩, ⟨"b", "B", true⟩] },
            .record [("S", .str "b")], true) :=
  ⟨by decide, rfl,
    (select_fill_cases { base := { Id := "S" }, Options := [⟨"a", "A", true⟩, ⟨"b", "B", false⟩] }
      (.record [("S", .str "")]) [("S", ["b"])] ⟨"a", "A", true⟩ [⟨"b", "B", false⟩] rfl).2
      (.record [("S", .str "b")]) (some (.str "b")) (by decide) rfl⟩

/-- C8 witness: a submission carrying the remove control for child `L.0`
makes both the list fill and the whole form fill come out `false`. -/
theorem list_action_controls_invalidate_witness :
    Values.get [(removeActionKey, ["L.0"]), ("L.0", ["x"])] removeActionKey
        = listChildId "L" 0
    ∧ fillReturnsTrue (ListWidget.Fill
          { base := { Id := "L" }, InnerWidget := .text { base := {} } }
          (.record [("L", .seq (.str "") [.str "x"])])
          [(removeActionKey, ["L.0"]), ("L.0", ["x"])]) = false
    ∧ formReturnsTrue (Form.Fill
          { Widgets := [.list { base := { Id := "L" }, InnerWidget := .text { base := {} } }],
            data := .record [("L", .seq (.str "") [.str "x"])] }
          [(removeActionKey, ["L.0"]), ("L.0", ["x"])]) = false :=
  ⟨by decide,
    (list_action_controls_invalidate
      { base := { Id := "L" }, InnerWidget := .text { base := {} } }
      [(removeActionKey, ["L.0"]), ("L.0", ["x"])]
      (Or.inl ⟨0, by decide, by decide⟩)).1 (.record [("L", .seq (.str "") [.str "x"])]),
    (list_action_controls_invalidate
      { base := { Id := "L" }, InnerWidget := .text { base := {} } }
      [(removeActionKey, ["L.0"]), ("L.0", ["x"])]
      (Or.inl ⟨0, by decide, by decide⟩)).2
      { Widgets := [.list { base := { Id := "L" }, InnerWidget := .text { base := {} } }],
        data := .record [("L", .seq (.str "") [.str "x"])] }
      [] [] rfl⟩

end Htmlwidgets
